import Mathlib

/-!
Verification of the nushell-verifier core against its specification.

The Python source is shallowly embedded: every definition below is a direct
transliteration of a function (or of the relevant branch structure) from
`src/nushell_verifier/`.  Strings are handled through their character lists,
Python exceptions are modelled with `Except PyErr`, and the on-disk
instruction cache is modelled as a map from file names to file states.
-/

/-- Python exceptions that the modelled code can raise or catch. -/
inductive PyErr where
  | typeError
  | keyError
  | osError
  | jsonDecodeError
  | valueError
  deriving DecidableEq

/-- Whitespace characters for Python's `str.strip` / `int()` (ASCII subset;
the modelled inputs are ASCII text). -/
def pyIsSpace (c : Char) : Bool :=
  c == ' ' || c == '\t' || c == '\n' || c == '\r' || c == '\x0b' || c == '\x0c'

/-- Remove trailing Python whitespace from a character list. -/
def dropTrailingWs (cs : List Char) : List Char :=
  (cs.reverse.dropWhile pyIsSpace).reverse

/-- Python `str.strip()` on character lists. -/
def wsStrip (cs : List Char) : List Char :=
  dropTrailingWs (cs.dropWhile pyIsSpace)

/-- Python `str.strip()`. -/
def pyStrip (s : String) : String :=
  String.mk (wsStrip s.data)

/-- Python `str.startswith(pre)`. -/
def pyStartsWith (s pre : String) : Bool :=
  pre.data.isPrefixOf s.data

/-- A run of decimal digits, optionally separated by single underscores,
as accepted by Python's `int()` after the sign (continuation part). -/
def digitRunRest : List Char → Bool
  | [] => true
  | '_' :: c :: rest => c.isDigit && digitRunRest rest
  | ['_'] => false
  | c :: rest => c.isDigit && digitRunRest rest

/-- A nonempty digit run with optional single underscores between digits. -/
def digitRun : List Char → Bool
  | [] => false
  | c :: rest => c.isDigit && digitRunRest rest

/-- Decimal value of a digit list. -/
def digitsVal (cs : List Char) : Nat :=
  cs.foldl (fun n c => 10 * n + (c.toNat - 48)) 0

/-- Digits (underscores removed) to a natural number, when well formed. -/
def parsePyNat (cs : List Char) : Option Nat :=
  if digitRun cs then some (digitsVal (cs.filter (fun c => c != '_'))) else none

/-- Python `int(str)` (decimal form on ASCII input): surrounding whitespace is
stripped, an optional sign is allowed, then digits with optional single
underscores between them.  `none` models a raised `ValueError`. -/
def parsePyIntC (cs : List Char) : Option Int :=
  match wsStrip cs with
  | '+' :: rest => (parsePyNat rest).map (fun n => (n : Int))
  | '-' :: rest => (parsePyNat rest).map (fun n => -(n : Int))
  | rest => (parsePyNat rest).map (fun n => (n : Int))

/-- Python `s.split(".")` for the single-character separator, on char lists. -/
def splitOnDot : List Char → List (List Char)
  | [] => [[]]
  | '.' :: rest => [] :: splitOnDot rest
  | c :: rest =>
    match splitOnDot rest with
    | h :: t => (c :: h) :: t
    | [] => [[c]]

/-- Lexicographic comparison of integer tuples, exactly Python's tuple
comparison: element-wise, a strict prefix is smaller. -/
def tupleCmp : List Int → List Int → Ordering
  | [], [] => .eq
  | [], _ :: _ => .lt
  | _ :: _, [] => .gt
  | a :: xs, b :: ys =>
    if a < b then .lt else if b < a then .gt else tupleCmp xs ys

/-- The local `version_tuple` helper of `version_manager.py`:
`tuple(map(int, v.lstrip("v").split(".")))`, with a raised `ValueError`
replaced by the tuple `(0, 0, 0)`. -/
def version_tuple (v : String) : List Int :=
  match (splitOnDot (v.data.dropWhile (fun c => c == 'v'))).mapM parsePyIntC with
  | some t => t
  | none => [0, 0, 0]

/-- `VersionManager.is_version_after`: `version_tuple(version) > version_tuple(reference)`. -/
def is_version_after (version reference : String) : Bool :=
  tupleCmp (version_tuple version) (version_tuple reference) == .gt

/-- `VersionManager.is_version_same_or_after`:
`version_tuple(version) >= version_tuple(reference)`. -/
def is_version_same_or_after (version reference : String) : Bool :=
  tupleCmp (version_tuple version) (version_tuple reference) != .lt

/-- The parsing prefix of `VersionManager.calculate_default_version`: the
`int(parts[0])`, `int(parts[1])` steps, `none` when a `ValueError` or
`IndexError` would be raised. -/
def parseMajorMinor (current : String) : Option (Int × Int) :=
  match splitOnDot (current.data.dropWhile (fun c => c == 'v')) with
  | p0 :: p1 :: _ =>
    match parsePyIntC p0, parsePyIntC p1 with
    | some major, some minor => some (major, minor)
    | _, _ => none
  | _ => none

/-- `VersionManager.calculate_default_version`: six minor versions behind,
clamped at zero; the fixed fallback `"0.90.0"` on a parse failure. -/
def calculate_default_version (current : String) : String :=
  match parseMajorMinor current with
  | some (major, minor) =>
    toString major ++ "." ++ toString (max 0 (minor - 6)) ++ ".0"
  | none => "0.90.0"

/-- JSON values as produced by `json.load(s)`.  Numeric tokens are kept
verbatim (`num raw`): the modelled code never uses a number's value, only the
shape of the decoded document. -/
inductive Json where
  | null
  | bool (b : Bool)
  | num (raw : String)
  | str (s : String)
  | arr (elems : List Json)
  | obj (fields : List (String × Json))

/-- JSON inter-token whitespace. -/
def jsonWs (c : Char) : Bool :=
  c == ' ' || c == '\t' || c == '\n' || c == '\r'

/-- Skip JSON whitespace. -/
def skipJsonWs (cs : List Char) : List Char :=
  cs.dropWhile jsonWs

/-- Value of one hexadecimal digit. -/
def hexVal (c : Char) : Option Nat :=
  if '0' ≤ c && c ≤ '9' then some (c.toNat - 48)
  else if 'a' ≤ c && c ≤ 'f' then some (c.toNat - 87)
  else if 'A' ≤ c && c ≤ 'F' then some (c.toNat - 55)
  else none

/-- Body of a JSON string after the opening quote: standard escapes, raw
control characters rejected (Python's strict mode).  `\uXXXX` becomes the
code point directly (surrogate pairs are not recombined in this model). -/
def parseJsonStringAux (acc : List Char) : List Char → Option (List Char × List Char)
  | '"' :: rest => some (acc.reverse, rest)
  | '\\' :: '"' :: rest => parseJsonStringAux ('"' :: acc) rest
  | '\\' :: '\\' :: rest => parseJsonStringAux ('\\' :: acc) rest
  | '\\' :: '/' :: rest => parseJsonStringAux ('/' :: acc) rest
  | '\\' :: 'b' :: rest => parseJsonStringAux ('\x08' :: acc) rest
  | '\\' :: 'f' :: rest => parseJsonStringAux ('\x0c' :: acc) rest
  | '\\' :: 'n' :: rest => parseJsonStringAux ('\n' :: acc) rest
  | '\\' :: 'r' :: rest => parseJsonStringAux ('\r' :: acc) rest
  | '\\' :: 't' :: rest => parseJsonStringAux ('\t' :: acc) rest
  | '\\' :: 'u' :: a :: b :: c :: d :: rest =>
    match hexVal a, hexVal b, hexVal c, hexVal d with
    | some x, some y, some z, some w =>
      parseJsonStringAux (Char.ofNat (((x * 16 + y) * 16 + z) * 16 + w) :: acc) rest
    | _, _, _, _ => none
  | '\\' :: _ => none
  | c :: rest => if c.toNat < 32 then none else parseJsonStringAux (c :: acc) rest
  | [] => none

/-- JSON number token: `-? (0 | [1-9][0-9]*) (. [0-9]+)? ([eE][+-]?[0-9]+)?`.
Returns the token's characters and the remaining input. -/
def parseJsonNum (cs : List Char) : Option (List Char × List Char) :=
  let (sgn, cs1) :=
    match cs with
    | '-' :: r => (['-'], r)
    | _ => ([], cs)
  match cs1 with
  | '0' :: r => parseJsonNumFrac (sgn ++ ['0']) r
  | c :: r =>
    if '1' ≤ c && c ≤ '9' then
      let ds := r.takeWhile Char.isDigit
      parseJsonNumFrac (sgn ++ c :: ds) (r.drop ds.length)
    else none
  | [] => none
where
  parseJsonNumFrac (tok : List Char) (cs : List Char) : Option (List Char × List Char) :=
    match cs with
    | '.' :: r =>
      let ds := r.takeWhile Char.isDigit
      if ds.isEmpty then none
      else parseJsonNumExp (tok ++ '.' :: ds) (r.drop ds.length)
    | _ => parseJsonNumExp tok cs
  parseJsonNumExp (tok : List Char) (cs : List Char) : Option (List Char × List Char) :=
    match cs with
    | e :: r =>
      if e == 'e' || e == 'E' then
        let (sgn, r1) :=
          match r with
          | '+' :: r2 => (['+'], r2)
          | '-' :: r2 => (['-'], r2)
          | _ => ([], r)
        let ds := r1.takeWhile Char.isDigit
        if ds.isEmpty then none
        else some (tok ++ e :: sgn ++ ds, r1.drop ds.length)
      else some (tok, cs)
    | [] => some (tok, cs)

mutual

/-- Recursive-descent JSON value parser (fuel-indexed), modelling
`json.loads` including Python's default acceptance of `NaN`/`Infinity`. -/
def parseJsonValue : Nat → List Char → Option (Json × List Char)
  | 0, _ => none
  | fuel + 1, cs =>
    match skipJsonWs cs with
    | 'n' :: 'u' :: 'l' :: 'l' :: r => some (.null, r)
    | 't' :: 'r' :: 'u' :: 'e' :: r => some (.bool true, r)
    | 'f' :: 'a' :: 'l' :: 's' :: 'e' :: r => some (.bool false, r)
    | 'N' :: 'a' :: 'N' :: r => some (.num "NaN", r)
    | 'I' :: 'n' :: 'f' :: 'i' :: 'n' :: 'i' :: 't' :: 'y' :: r => some (.num "Infinity", r)
    | '-' :: 'I' :: 'n' :: 'f' :: 'i' :: 'n' :: 'i' :: 't' :: 'y' :: r =>
      some (.num "-Infinity", r)
    | '"' :: r => (parseJsonStringAux [] r).map (fun p => (.str (String.mk p.1), p.2))
    | '[' :: r =>
      match skipJsonWs r with
      | ']' :: r2 => some (.arr [], r2)
      | _ => (parseJsonArrItems fuel (skipJsonWs r)).map (fun p => (.arr p.1, p.2))
    | '{' :: r =>
      match skipJsonWs r with
      | '}' :: r2 => some (.obj [], r2)
      | _ => (parseJsonObjItems fuel (skipJsonWs r)).map (fun p => (.obj p.1, p.2))
    | cs1 => (parseJsonNum cs1).map (fun p => (.num (String.mk p.1), p.2))

/-- One-or-more comma-separated array elements, then `]`. -/
def parseJsonArrItems : Nat → List Char → Option (List Json × List Char)
  | 0, _ => none
  | fuel + 1, cs => do
    let (v, r) ← parseJsonValue fuel cs
    match skipJsonWs r with
    | ',' :: r2 => do
      let (vs, r3) ← parseJsonArrItems fuel r2
      some (v :: vs, r3)
    | ']' :: r2 => some ([v], r2)
    | _ => none

/-- One-or-more comma-separated `"key": value` members, then `}`. -/
def parseJsonObjItems : Nat → List Char → Option (List (String × Json) × List Char)
  | 0, _ => none
  | fuel + 1, cs =>
    match skipJsonWs cs with
    | '"' :: r => do
      let (k, r1) ← parseJsonStringAux [] r
      match skipJsonWs r1 with
      | ':' :: r2 => do
        let (v, r3) ← parseJsonValue fuel r2
        match skipJsonWs r3 with
        | ',' :: r4 => do
          let (fs, r5) ← parseJsonObjItems fuel r4
          some ((String.mk k, v) :: fs, r5)
        | '}' :: r4 => some ([(String.mk k, v)], r4)
        | _ => none
      | _ => none
    | _ => none

end

/-- `json.loads`: parse one value, require only whitespace afterwards.
`none` models a raised `json.JSONDecodeError`. -/
def jsonLoads (s : String) : Option Json :=
  match parseJsonValue (s.data.length + 1) s.data with
  | some (j, rest) => if (skipJsonWs rest).isEmpty then some j else none
  | none => none
/-- State of one file in the cache directory: missing, unreadable (`OSError`
on open/read), readable but not valid JSON, or holding a decoded document. -/
inductive FileState where
  | absent
  | readError
  | notJson
  | json (j : Json)

/-- The instruction-cache directory, as a map from file names to states. -/
def Store : Type := String → FileState

/-- The empty cache directory. -/
def emptyStore : Store := fun _ => .absent

/-- `llm_model.replace("/", "_")` from `cache.py`. -/
def safeModel (m : String) : String :=
  String.mk (m.data.map (fun c => if c = '/' then '_' else c))

/-- The cache file name `f"{version}_{safe_model}.json"`. -/
def cacheFileName (version llm_model : String) : String :=
  version ++ "_" ++ safeModel llm_model ++ ".json"

/-- Python substring test `needle in hay` on character lists. -/
def listIsInfixOf (needle : List Char) : List Char → Bool
  | [] => needle.isPrefixOf []
  | c :: t => needle.isPrefixOf (c :: t) || listIsInfixOf needle t

/-- Dict lookup as built by `json.loads` (later duplicate keys win). -/
def dictLookup (fields : List (String × Json)) (k : String) : Option Json :=
  fields.foldl (fun acc p => if p.1 == k then some p.2 else acc) none

/-- Python `key in cache_data` for a decoded JSON document: key membership on
a dict, equality membership on a list, substring test on a string, and a
`TypeError` on any non-iterable value. -/
def jsonContains (j : Json) (key : String) : Except PyErr Bool :=
  match j with
  | .obj fields => .ok (fields.any (fun p => p.1 == key))
  | .arr xs => .ok (xs.any (fun x => match x with | .str s => s == key | _ => false))
  | .str s => .ok (listIsInfixOf key.data s.data)
  | _ => .error .typeError

/-- `all(field in cache_data for field in fields)`, short-circuiting. -/
def allContains (j : Json) : List String → Except PyErr Bool
  | [] => .ok true
  | k :: ks =>
    match jsonContains j k with
    | .error e => .error e
    | .ok b => if b then allContains j ks else .ok false

/-- Python `cache_data[key]`: dict lookup (`KeyError` if missing), `TypeError`
on any other decoded value. -/
def jsonGetItem (j : Json) (key : String) : Except PyErr Json :=
  match j with
  | .obj fields =>
    match dictLookup fields key with
    | some v => .ok v
    | none => .error .keyError
  | _ => .error .typeError

/-- Python `value != s` between a decoded JSON value and a string. -/
def pyNeStr (j : Json) (s : String) : Bool :=
  match j with
  | .str t => t != s
  | _ => true

/-- The body of the `try` block of `InstructionCache.get_cached_instructions`
(field presence check, model check, version check, field extraction). -/
def getCachedBody (cacheData : Json) (version llm_model : String) :
    Except PyErr (Option Json) :=
  match allContains cacheData ["version", "instructions", "created_at", "llm_model"] with
  | .error e => .error e
  | .ok false => .ok none
  | .ok true =>
    match jsonGetItem cacheData "llm_model" with
    | .error e => .error e
    | .ok m =>
      if pyNeStr m llm_model then .ok none
      else
        match jsonGetItem cacheData "version" with
        | .error e => .error e
        | .ok v =>
          if pyNeStr v version then .ok none
          else
            match jsonGetItem cacheData "instructions" with
            | .error e => .error e
            | .ok i => .ok (some i)

/-- `InstructionCache.get_cached_instructions`: look up the cache file, run
the validation body, and catch exactly `json.JSONDecodeError`, `OSError` and
`KeyError` (any other exception propagates to the caller). -/
def get_cached_instructions (store : Store) (version llm_model : String) :
    Except PyErr (Option Json) :=
  match store (cacheFileName version llm_model) with
  | .absent => .ok none
  | .readError => .ok none
  | .notJson => .ok none
  | .json cacheData =>
    match getCachedBody cacheData version llm_model with
    | .error .jsonDecodeError => .ok none
    | .error .osError => .ok none
    | .error .keyError => .ok none
    | r => r

/-- `InstructionCache.save_instructions` with the write completing: the entry
file is overwritten with the four-field document.  (On an `OSError` the real
code prints a warning and leaves the store unchanged.) -/
def save_instructions (store : Store) (version instructions llm_model now : String) :
    Store :=
  fun k =>
    if k = cacheFileName version llm_model then
      .json (.obj [("version", .str version), ("instructions", .str instructions),
                   ("created_at", .str now), ("llm_model", .str llm_model)])
    else store k

/-- `models.CompatibilityIssue`.  The dataclass annotates the fields as
strings but Python does not enforce the annotation, so decoded JSON values
flow through unchanged; the fields are therefore modelled as JSON values. -/
structure CompatibilityIssue where
  description : Json
  suggested_fix : Option Json
  severity : Json

/-- One step of the issue list comprehension in
`LLMClient.analyze_script_compatibility`:
`CompatibilityIssue(description=issue["description"],
suggested_fix=issue.get("suggested_fix"),
severity=issue.get("severity", "warning"))`. -/
def issueOfJson (issue : Json) : Except PyErr CompatibilityIssue :=
  match issue with
  | .obj fields =>
    match dictLookup fields "description" with
    | some d =>
      .ok ⟨d, dictLookup fields "suggested_fix",
           (dictLookup fields "severity").getD (.str "warning")⟩
    | none => .error .keyError
  | _ => .error .typeError

/-- Python iteration of the comprehension over the decoded response: a list
iterates its elements; a dict iterates its keys (strings, so indexing the
first one with `"description"` raises `TypeError` unless the dict is empty);
a string iterates its characters (same `TypeError` unless empty); numbers,
booleans and `null` are not iterable. -/
def issuesFromJson : Json → Except PyErr (List CompatibilityIssue)
  | .arr xs => xs.mapM issueOfJson
  | .obj [] => .ok []
  | .obj (_ :: _) => .error .typeError
  | .str s => if s.data.isEmpty then .ok [] else .error .typeError
  | _ => .error .typeError

/-- The response-parsing tail of `LLMClient.analyze_script_compatibility`:
strip the oracle's message content, return `[]` on the sentinel, decode JSON
with a single-issue fallback on `json.JSONDecodeError` only, then run the
comprehension.  An `Except.error` models an exception escaping to the
enclosing handler (which re-raises it as `RuntimeError`). -/
def parseAnalysisResponse (content : String) : Except PyErr (List CompatibilityIssue) :=
  let result := pyStrip content
  if result == "COMPATIBLE" then .ok []
  else
    match jsonLoads result with
    | none => .ok [⟨.str result, none, .str "warning"⟩]
    | some issuesData => issuesFromJson issuesData

/-- `models.ReleaseInfo`. -/
structure ReleaseInfo where
  version : String
  blog_post_url : Option String
  blog_post_content : Option String
  compatibility_instructions : Option String

/-- The strict `version_tuple` of `github_client.py` (no fallback; `none`
models a raised `ValueError`). -/
def version_tuple_strict (v : String) : Option (List Int) :=
  (splitOnDot (v.data.dropWhile (fun c => c == 'v'))).mapM parsePyIntC

/-- `GitHubClient._is_version_between`:
`start_tuple <= v_tuple <= end_tuple`, `False` when any of the three version
strings fails to parse. -/
def _is_version_between (version start endVersion : String) : Bool :=
  match version_tuple_strict version, version_tuple_strict start,
        version_tuple_strict endVersion with
  | some vt, some st, some et => tupleCmp st vt != .gt && tupleCmp vt et != .gt
  | _, _, _ => false

/-- `GitHubClient._is_patch_release`:
`len(parts) >= 3 and int(parts[2]) > 0`, `False` on a `ValueError`. -/
def _is_patch_release (version : String) : Bool :=
  let parts := splitOnDot (version.data.dropWhile (fun c => c == 'v'))
  if parts.length ≥ 3 then
    match parsePyIntC (parts.getD 2 []) with
    | some n => decide (0 < n)
    | none => false
  else false

/-- `GitHubClient.get_releases_between`, with the already-fetched release
list passed in (the HTTP fetch is the external collaborator). -/
def get_releases_between (releases : List ReleaseInfo) (start endVersion : String) :
    List ReleaseInfo :=
  releases.filter
    (fun r => _is_version_between r.version start endVersion &&
              !(_is_patch_release r.version))

/-- `models.CompatibilityMethod`. -/
inductive CompatibilityMethod where
  | comment_header
  | directory_file
  | default_assumption
  deriving DecidableEq

/-- `models.ScriptFile` (the path is kept as a plain string). -/
structure ScriptFile where
  path : String
  compatible_version : String
  method : CompatibilityMethod
  has_shebang : Bool

/-- `models.ScriptAnalysis`. -/
structure ScriptAnalysis where
  script : ScriptFile
  target_version : String
  issues : List CompatibilityIssue
  is_compatible : Bool

/-- Terminal state of one file in `NuShellAnalyzer.analyze_scripts`. -/
inductive ScriptStatus where
  | skipped
  | analyzed
  deriving DecidableEq

/-- The per-script branch of the loop in `NuShellAnalyzer.analyze_scripts`:
skip (empty issues, compatible, no oracle call) when the script's known
compatible version is same-or-after the target, otherwise analyze with one
oracle call (`issues`, `is_compatible = len(issues) == 0`).  The oracle is
the abstract analysis collaborator; the returned `Nat` counts its calls. -/
def analyzeOneScript (script : ScriptFile) (target_version : String)
    (oracle : ScriptFile → List CompatibilityIssue) :
    ScriptStatus × ScriptAnalysis × Nat :=
  if is_version_same_or_after script.compatible_version target_version then
    (.skipped, ⟨script, target_version, [], true⟩, 0)
  else
    let issues := oracle script
    (.analyzed, ⟨script, target_version, issues, issues.length == 0⟩, 1)
/-- The characters of the fixed literal part of `VERSION_COMMENT_PATTERN`. -/
def versionCommentLit : List Char := "nushell-compatible-with:".data

/-- `VERSION_COMMENT_PATTERN.match(line)` as a Boolean: the regex
`^\s*#\s*nushell-compatible-with:\s*([^\s]+)` matches at the start of the
line (the capture group only requires one non-whitespace character after the
literal). -/
def matchVersionComment (line : String) : Bool :=
  match line.data.dropWhile pyIsSpace with
  | '#' :: rest =>
    let r1 := rest.dropWhile pyIsSpace
    if versionCommentLit.isPrefixOf r1 then
      !((r1.drop versionCommentLit.length).dropWhile pyIsSpace).isEmpty
    else false
  | _ => false

/-- The comment written by `update_version_comment`:
`f"# nushell-compatible-with: {new_version}\n"`. -/
def mkVersionComment (new_version : String) : String :=
  "# nushell-compatible-with: " ++ new_version ++ "\n"

/-- The header scan of `update_version_comment`: the index of the first line
matching the version-comment pattern, stopping (with no result) at the first
line that is nonempty after stripping and does not start with `#`. -/
def findCommentLine : List String → Option Nat
  | [] => none
  | l :: rest =>
    if matchVersionComment l then some 0
    else if pyStrip l != "" && !(pyStartsWith (pyStrip l) "#") then none
    else (findCommentLine rest).map (· + 1)

/-- Python `list.insert(i, x)` (clamping the index to the length). -/
def insertAt : Nat → String → List String → List String
  | 0, x, l => x :: l
  | _ + 1, x, [] => [x]
  | n + 1, x, h :: t => h :: insertAt n x t

/-- The insertion-point preparation of `update_version_comment` when no
existing comment was found: after a shebang line the position is 2, with a
blank line inserted after the shebang unless one is already there; otherwise
the position is 0.  Returns the prepared lines and the insert position. -/
def insertPrep (lines : List String) : List String × Nat :=
  match lines with
  | [] => ([], 0)
  | l0 :: rest =>
    if pyStartsWith (pyStrip l0) "#!" then
      match rest with
      | l1 :: _ => if pyStrip l1 == "" then (lines, 2) else (insertAt 1 "\n" lines, 2)
      | [] => (insertAt 1 "\n" lines, 2)
    else (lines, 0)

/-- `VersionManager.update_version_comment`: replace the first matching
header comment in place, or insert a new comment (after the shebang when
present), followed by a blank line when the next line is not blank. -/
def update_version_comment (lines : List String) (new_version : String) : List String :=
  let new_comment := mkVersionComment new_version
  match findCommentLine lines with
  | some i => lines.set i new_comment
  | none =>
    let p := insertPrep lines
    let u1 := insertAt p.2 new_comment p.1
    if p.2 + 1 < u1.length && pyStrip (u1.getD (p.2 + 1) "") != "" then
      insertAt (p.2 + 1) "\n" u1
    else u1
theorem tupleCmp_self (x : List Int) : tupleCmp x x = .eq := by
  induction x with
  | nil => rfl
  | cons a xs ih => simp [tupleCmp, ih]

theorem tupleCmp_gt_iff_lt (x y : List Int) : tupleCmp x y = .gt ↔ tupleCmp y x = .lt := by
  induction x generalizing y with
  | nil => cases y <;> simp [tupleCmp]
  | cons a xs ih =>
    cases y with
    | nil => simp [tupleCmp]
    | cons b ys =>
      by_cases h1 : a < b
      · have h2 : ¬b < a := by omega
        simp [tupleCmp, h1, h2]
      · by_cases h2 : b < a
        · simp [tupleCmp, h1, h2]
        · simp [tupleCmp, h1, h2, ih]

theorem tupleCmp_gt_trans (x y z : List Int) (h1 : tupleCmp x y = .gt)
    (h2 : tupleCmp y z = .gt) : tupleCmp x z = .gt := by
  induction x generalizing y z with
  | nil => cases y <;> simp [tupleCmp] at h1
  | cons a xs ih =>
    cases y with
    | nil => cases z <;> simp [tupleCmp] at h2
    | cons b ys =>
      cases z with
      | nil => simp [tupleCmp]
      | cons c zs =>
        simp only [tupleCmp] at h1 h2 ⊢
        by_cases hab : a < b
        · simp [hab] at h1
        · by_cases hbc : b < c
          · simp [hbc] at h2
          · by_cases hba : b < a
            · have h3 : ¬a < c := by omega
              have h4 : c < a := by omega
              simp [h3, h4]
            · by_cases hcb : c < b
              · have h3 : ¬a < c := by omega
                have h4 : c < a := by omega
                simp [h3, h4]
              · have h3 : ¬a < c := by omega
                have h4 : ¬c < a := by omega
                simp [hab, hba] at h1
                simp [hbc, hcb] at h2
                simp [h3, h4]
                exact ih ys zs h1 h2

theorem tupleCmp_append_gt (x t : List Int) (ht : t ≠ []) : tupleCmp (x ++ t) x = .gt := by
  induction x with
  | nil =>
    cases t with
    | nil => exact absurd rfl ht
    | cons c cs => simp [tupleCmp]
  | cons a xs ih => simp [tupleCmp, ih]

theorem ordering_beq_gt_iff (x : Ordering) : (x == Ordering.gt) = true ↔ x = Ordering.gt := by
  cases x <;> decide

theorem ordering_bne_lt_iff (x : Ordering) : (x != Ordering.lt) = false ↔ x = Ordering.lt := by
  cases x <;> decide

theorem version_tuple_of_fail {x : String}
    (h : (splitOnDot (x.data.dropWhile (fun c => c == 'v'))).mapM parsePyIntC = none) :
    version_tuple x = [0, 0, 0] := by
  unfold version_tuple
  rw [h]

theorem version_tuple_of_strict {v : String} {t : List Int}
    (h : version_tuple_strict v = some t) : version_tuple v = t := by
  unfold version_tuple_strict at h
  unfold version_tuple
  rw [h]

/-- Claim C7: the version comparator is a total order on parsed tuples —
`isAfter` is antisymmetric and transitive, `isSameOrAfter(a,a)` always
holds — and every malformed version string is ordered exactly as the zero
version `(0,0,0)`.  Comparison is a total function of the inputs (the model
has no exception outcome), so it never throws. -/
theorem version_order_properties :
    (∀ a b : String, is_version_after a b = true → is_version_after b a = false) ∧
    (∀ a b c : String, is_version_after a b = true → is_version_after b c = true →
      is_version_after a c = true) ∧
    (∀ a : String, is_version_same_or_after a a = true) ∧
    (∀ x : String,
      (splitOnDot (x.data.dropWhile (fun c => c == 'v'))).mapM parsePyIntC = none →
      version_tuple x = [0, 0, 0] ∧
      is_version_same_or_after x "0.0.0" = true ∧
      is_version_same_or_after "0.0.0" x = true ∧
      is_version_after x "0.0.0" = false ∧
      is_version_after "0.0.0" x = false) := by
  refine ⟨?_, ?_, ?_, ?_⟩
  · intro a b h
    simp only [is_version_after, ordering_beq_gt_iff] at h
    have h2 := (tupleCmp_gt_iff_lt _ _).mp h
    simp only [is_version_after, h2]
    decide
  · intro a b c h1 h2
    simp only [is_version_after, ordering_beq_gt_iff] at h1 h2 ⊢
    exact tupleCmp_gt_trans _ _ _ h1 h2
  · intro a
    simp only [is_version_same_or_after, tupleCmp_self]
    decide
  · intro x h
    have hv : version_tuple x = [0, 0, 0] := version_tuple_of_fail h
    refine ⟨hv, ?_, ?_, ?_, ?_⟩ <;>
      simp only [is_version_same_or_after, is_version_after, hv] <;> decide

/-- Witness for C7 at concrete versions (and a malformed one). -/
theorem version_order_properties_witness :
    is_version_after "0.97.0" "0.98.0" = false ∧
    is_version_after "0.99.0" "0.97.0" = true ∧
    is_version_same_or_after "0.97.0" "0.97.0" = true ∧
    version_tuple "abc" = [0, 0, 0] :=
  ⟨version_order_properties.1 "0.98.0" "0.97.0" (by decide),
   version_order_properties.2.1 "0.99.0" "0.98.0" "0.97.0" (by decide) (by decide),
   version_order_properties.2.2.1 "0.97.0",
   (version_order_properties.2.2.2 "abc" (by decide)).1⟩

/-- Claim C8: when the parsed tuple of `a` is a strict prefix-extension of the
parsed tuple of `b` (extra trailing components, even all zero), `a` compares
strictly greater: `isAfter(a,b)` and `¬ isSameOrAfter(b,a)`. -/
theorem version_prefix_extension_greater :
    ∀ (a b : String) (ext : List Int), ext ≠ [] →
      version_tuple a = version_tuple b ++ ext →
      is_version_after a b = true ∧ is_version_same_or_after b a = false := by
  intro a b ext hne heq
  constructor
  · simp only [is_version_after, heq, ordering_beq_gt_iff]
    exact tupleCmp_append_gt _ _ hne
  · simp only [is_version_same_or_after, heq]
    have h2 : tupleCmp (version_tuple b) (version_tuple b ++ ext) = .lt :=
      (tupleCmp_gt_iff_lt _ _).mp (tupleCmp_append_gt _ _ hne)
    rw [h2]
    decide

/-- Witness for C8: `"0.97.0"` against `"0.97"`. -/
theorem version_prefix_extension_greater_witness :
    is_version_after "0.97.0" "0.97" = true ∧
    is_version_same_or_after "0.97" "0.97.0" = false :=
  version_prefix_extension_greater "0.97.0" "0.97" [0] (by decide) (by decide)

/-- Claim C9: `calculate_default_version` returns `major.(max 0 (minor-6)).0` of
the parsed current version, the fixed fallback `"0.90.0"` on parse failure,
and the three documented concrete values. -/
theorem calculate_default_version_correct :
    (∀ (cur : String) (maj minr : Int), parseMajorMinor cur = some (maj, minr) →
      calculate_default_version cur =
        toString maj ++ "." ++ toString (max 0 (minr - 6)) ++ ".0") ∧
    (∀ cur : String, parseMajorMinor cur = none →
      calculate_default_version cur = "0.90.0") ∧
    calculate_default_version "0.96.0" = "0.90.0" ∧
    calculate_default_version "1.5.0" = "1.0.0" ∧
    calculate_default_version "0.3.0" = "0.0.0" := by
  refine ⟨?_, ?_, by decide, by decide, by decide⟩
  · intro cur maj minr h
    simp [calculate_default_version, h]
  · intro cur h
    simp [calculate_default_version, h]

/-- Witness for C9 at `"1.5.0"` and a malformed current version. -/
theorem calculate_default_version_correct_witness :
    calculate_default_version "1.5.0" =
      toString (1 : Int) ++ "." ++ toString (max 0 ((5 : Int) - 6)) ++ ".0" ∧
    calculate_default_version "x.y.z" = "0.90.0" :=
  ⟨calculate_default_version_correct.1 "1.5.0" 1 5 (by decide),
   calculate_default_version_correct.2.1 "x.y.z" (by decide)⟩

/-- Claim C3: a script is skipped exactly when its known-compatible version is
same-or-after the target; a skipped script gets an empty issue list,
`is_compatible = true` and zero oracle calls, and an analyzed script makes
exactly one oracle call — including the three documented concrete cases. -/
theorem skip_iff_known_compatible :
    (∀ (script : ScriptFile) (target : String)
        (oracle : ScriptFile → List CompatibilityIssue),
      ((analyzeOneScript script target oracle).1 = .skipped ↔
        is_version_same_or_after script.compatible_version target = true) ∧
      ((analyzeOneScript script target oracle).1 = .skipped →
        (analyzeOneScript script target oracle).2.1.issues = [] ∧
        (analyzeOneScript script target oracle).2.1.is_compatible = true ∧
        (analyzeOneScript script target oracle).2.2 = 0) ∧
      ((analyzeOneScript script target oracle).1 = .analyzed →
        (analyzeOneScript script target oracle).2.2 = 1)) ∧
    (analyzeOneScript ⟨"a.nu", "0.97.0", .default_assumption, false⟩ "0.97.0"
      (fun _ => [⟨.str "issue", none, .str "warning"⟩])).1 = .skipped ∧
    (analyzeOneScript ⟨"a.nu", "0.98.0", .default_assumption, false⟩ "0.97.0"
      (fun _ => [⟨.str "issue", none, .str "warning"⟩])).1 = .skipped ∧
    (analyzeOneScript ⟨"a.nu", "0.95.0", .default_assumption, false⟩ "0.97.0"
      (fun _ => [⟨.str "issue", none, .str "warning"⟩])).1 = .analyzed ∧
    (analyzeOneScript ⟨"a.nu", "0.95.0", .default_assumption, false⟩ "0.97.0"
      (fun _ => [⟨.str "issue", none, .str "warning"⟩])).2.2 = 1 := by
  refine ⟨?_, rfl, rfl, rfl, rfl⟩
  intro script target oracle
  cases hb : is_version_same_or_after script.compatible_version target with
  | true => simp [analyzeOneScript, hb]
  | false => simp [analyzeOneScript, hb]

/-- Witness for C3: the skip implication at a concrete skipped script. -/
theorem skip_iff_known_compatible_witness :
    (analyzeOneScript ⟨"b.nu", "1.0.0", .comment_header, true⟩ "0.99.0"
      (fun _ => [])).2.1.issues = [] ∧
    (analyzeOneScript ⟨"b.nu", "1.0.0", .comment_header, true⟩ "0.99.0"
      (fun _ => [])).2.1.is_compatible = true ∧
    (analyzeOneScript ⟨"b.nu", "1.0.0", .comment_header, true⟩ "0.99.0"
      (fun _ => [])).2.2 = 0 :=
  (skip_iff_known_compatible.1 ⟨"b.nu", "1.0.0", .comment_header, true⟩ "0.99.0"
    (fun _ => [])).2.1 (by decide)
theorem string_data_inj {a b : String} (h : a.data = b.data) : a = b := by
  cases a
  cases b
  exact congrArg String.mk h

theorem string_data_append (a b : String) : (a ++ b).data = a.data ++ b.data := rfl

theorem cacheFileName_safeModel_inj {v a b : String}
    (h : cacheFileName v a = cacheFileName v b) : safeModel a = safeModel b := by
  have hd := congrArg String.data h
  simp only [cacheFileName, string_data_append] at hd
  exact string_data_inj (List.append_cancel_left (List.append_cancel_right hd))

/-- Claim C5 (amended): the storage-key encoding separates every two model
identifiers that remain distinct after the `/` to `_` substitution; the
substitution itself can collide (see the counterexample). -/
theorem cache_key_injective_modulo_substitution :
    ∀ v m1 m2 : String, safeModel m1 ≠ safeModel m2 →
      cacheFileName v m1 ≠ cacheFileName v m2 := by
  intro v m1 m2 hne h
  exact hne (cacheFileName_safeModel_inj h)

/-- Claim C5 counterexample: the distinct model identifiers `"a/b"` and `"a_b"`
are mapped to the same storage key. -/
theorem cache_key_collision :
    cacheFileName "0.107.0" "a/b" = cacheFileName "0.107.0" "a_b" ∧
    ("a/b" : String) ≠ "a_b" := ⟨by decide, by decide⟩

/-- Witness for C5 (amended) at two models with distinct substituted forms. -/
theorem cache_key_injective_modulo_substitution_witness :
    cacheFileName "0.107.0" "openai/gpt-4" ≠ cacheFileName "0.107.0" "openai/gpt-5" :=
  cache_key_injective_modulo_substitution "0.107.0" "openai/gpt-4" "openai/gpt-5"
    (by decide)

/-- Claim C1 (code bug): a cache entry file whose JSON document is not a dict
(here the number `5`) makes `get_cached_instructions` raise a `TypeError`
(from `"version" in cache_data`, and `TypeError` is not in the `except`
clause) instead of returning absent. -/
theorem cache_get_nondict_entry_raises_typeerror :
    get_cached_instructions
      (fun k => if k = cacheFileName "0.107.0" "gpt-4" then .json (.num "5")
                else .absent)
      "0.107.0" "gpt-4" = .error .typeError := rfl

theorem getCachedBody_saved (v text m now : String) :
    getCachedBody
      (.obj [("version", .str v), ("instructions", .str text),
             ("created_at", .str now), ("llm_model", .str m)]) v m =
      .ok (some (.str text)) := by
  simp [getCachedBody, allContains, jsonContains, jsonGetItem, dictLookup, pyNeStr]

theorem getCachedBody_model_mismatch (v text m now m2 : String) (hne : m ≠ m2) :
    getCachedBody
      (.obj [("version", .str v), ("instructions", .str text),
             ("created_at", .str now), ("llm_model", .str m)]) v m2 =
      .ok none := by
  have hb : (m == m2) = false := beq_eq_false_iff_ne.mpr hne
  simp [getCachedBody, allContains, jsonContains, jsonGetItem, dictLookup, pyNeStr,
        bne, hb]

theorem get_after_save_hit (store : Store) (v text m now : String) :
    get_cached_instructions (save_instructions store v text m now) v m =
      .ok (some (.str text)) := by
  have h := getCachedBody_saved v text m now
  simp [get_cached_instructions, save_instructions, h]

/-- Claim C4: cache round trip from the empty store — `get` after `put` returns
the stored text, `get` with a different model is absent (whether or not the
substituted keys collide), and a second `put` overwrites (last write wins). -/
theorem cache_round_trip :
    ∀ v m m2 text text2 now now2 : String, m ≠ m2 →
      get_cached_instructions (save_instructions emptyStore v text m now) v m =
        .ok (some (.str text)) ∧
      get_cached_instructions (save_instructions emptyStore v text m now) v m2 =
        .ok none ∧
      get_cached_instructions
        (save_instructions (save_instructions emptyStore v text m now) v text2 m now2)
        v m = .ok (some (.str text2)) := by
  intro v m m2 text text2 now now2 hne
  refine ⟨get_after_save_hit _ _ _ _ _, ?_, get_after_save_hit _ _ _ _ _⟩
  by_cases hsm : safeModel m2 = safeModel m
  · have hk : cacheFileName v m2 = cacheFileName v m := by
      unfold cacheFileName
      rw [hsm]
    have h := getCachedBody_model_mismatch v text m now m2 hne
    simp [get_cached_instructions, save_instructions, hk, h]
  · have hk : cacheFileName v m2 ≠ cacheFileName v m := fun h =>
      hsm (cacheFileName_safeModel_inj h)
    simp [get_cached_instructions, save_instructions, hk, emptyStore]

/-- Witness for C4 at concrete versions, models and texts. -/
theorem cache_round_trip_witness :
    get_cached_instructions
      (save_instructions emptyStore "0.107.0" "A" "openai/gpt-4" "t1")
      "0.107.0" "openai/gpt-4" = .ok (some (.str "A")) ∧
    get_cached_instructions
      (save_instructions emptyStore "0.107.0" "A" "openai/gpt-4" "t1")
      "0.107.0" "openai/gpt-5" = .ok none ∧
    get_cached_instructions
      (save_instructions (save_instructions emptyStore "0.107.0" "A" "openai/gpt-4" "t1")
        "0.107.0" "B" "openai/gpt-4" "t2")
      "0.107.0" "openai/gpt-4" = .ok (some (.str "B")) :=
  cache_round_trip "0.107.0" "openai/gpt-4" "openai/gpt-5" "A" "B" "t1" "t2" (by decide)

/-- Claim C2 (amended): the sentinel (after stripping) yields an empty issue list;
a stripped response that fails JSON decoding yields exactly one issue whose
description is the stripped response with severity `"warning"` and no fix;
a decoded array of objects with a `"description"` field yields the parsed
issues.  (A response that decodes to JSON of another shape can yield other
results or raise — see the counterexample.) -/
theorem analyze_response_parse_behavior :
    (∀ r : String, pyStrip r = "COMPATIBLE" → parseAnalysisResponse r = .ok []) ∧
    (∀ r : String, pyStrip r ≠ "COMPATIBLE" → jsonLoads (pyStrip r) = none →
      parseAnalysisResponse r = .ok [⟨.str (pyStrip r), none, .str "warning"⟩]) ∧
    parseAnalysisResponse "[\x7b\"description\": \"uses removed flag\"\x7d]" =
      .ok [⟨.str "uses removed flag", none, .str "warning"⟩] := by
  refine ⟨?_, ?_, rfl⟩
  · intro r h
    simp [parseAnalysisResponse, h]
  · intro r h1 h2
    have hb : (pyStrip r == "COMPATIBLE") = false := beq_eq_false_iff_ne.mpr h1
    simp [parseAnalysisResponse, hb, h2]

/-- Claim C2 counterexample: the response `"[{}]"` decodes as JSON but is not the
expected structured form, and issue parsing raises `KeyError` (escaping as
`RuntimeError`) instead of producing the single fallback issue. -/
theorem analyze_response_parse_raises :
    parseAnalysisResponse "[\x7b\x7d]" = .error .keyError := rfl

/-- Witness for C2 (amended) at a sentinel response and a free-text one. -/
theorem analyze_response_parse_behavior_witness :
    parseAnalysisResponse "  COMPATIBLE\n" = .ok [] ∧
    parseAnalysisResponse "Breaking change: ls flag removed" =
      .ok [⟨.str "Breaking change: ls flag removed", none, .str "warning"⟩] :=
  ⟨analyze_response_parse_behavior.1 "  COMPATIBLE\n" (by decide),
   analyze_response_parse_behavior.2.1 "Breaking change: ls flag removed"
     (by decide) (by rfl)⟩
theorem tupleCmp_bne_gt_eq (x y : List Int) :
    (tupleCmp x y != .gt) = (tupleCmp y x != .lt) := by
  rcases h : tupleCmp x y with _ | _ | _
  · have h2 : tupleCmp y x = .gt := (tupleCmp_gt_iff_lt y x).mpr h
    rw [h2]
    decide
  · have h2 : tupleCmp y x ≠ .lt := by
      intro hlt
      have := (tupleCmp_gt_iff_lt x y).mpr hlt
      rw [h] at this
      cases this
    rcases h3 : tupleCmp y x with _ | _ | _
    · exact absurd h3 h2
    · decide
    · decide
  · have h2 : tupleCmp y x = .lt := (tupleCmp_gt_iff_lt x y).mp h
    rw [h2]
    decide

theorem is_version_between_eq_comparator {v s e : String} {tv ts te : List Int}
    (hv : version_tuple_strict v = some tv) (hs : version_tuple_strict s = some ts)
    (he : version_tuple_strict e = some te) :
    _is_version_between v s e =
      (is_version_same_or_after v s && is_version_same_or_after e v) := by
  simp only [_is_version_between, hv, hs, he]
  unfold is_version_same_or_after
  rw [version_tuple_of_strict hv, version_tuple_of_strict hs, version_tuple_of_strict he,
      tupleCmp_bne_gt_eq ts tv, tupleCmp_bne_gt_eq tv te]

/-- Claim C6 (amended): for release versions and window endpoints that parse,
`get_releases_between` retains exactly the releases in `[start, end]`
inclusive per the Version Comparator that are not patch releases per
`_is_patch_release` (at least 3 dot components with a third that parses to a
positive integer); a release or endpoint whose version fails to parse is
excluded (see the counterexample), and `"0.106.1"` is excluded while
`"0.106.0"` is retained in the window `["0.105.0", "0.107.0"]`. -/
theorem releases_between_window :
    (∀ (rels : List ReleaseInfo) (start endVersion : String) (r : ReleaseInfo)
        (ts te tr : List Int),
      version_tuple_strict start = some ts →
      version_tuple_strict endVersion = some te →
      version_tuple_strict r.version = some tr →
      (r ∈ get_releases_between rels start endVersion ↔
        r ∈ rels ∧ is_version_same_or_after r.version start = true ∧
        is_version_same_or_after endVersion r.version = true ∧
        _is_patch_release r.version = false)) ∧
    get_releases_between
      [⟨"0.106.1", none, none, none⟩, ⟨"0.106.0", none, none, none⟩]
      "0.105.0" "0.107.0" = [⟨"0.106.0", none, none, none⟩] := by
  refine ⟨?_, rfl⟩
  intro rels start endVersion r ts te tr hs he hr
  unfold get_releases_between
  rw [List.mem_filter, is_version_between_eq_comparator hr hs he]
  simp only [Bool.and_eq_true, Bool.not_eq_true']
  tauto

/-- Claim C6 counterexample: the malformed release version `"abc"` is in-window
per the Version Comparator (it is ordered as `(0,0,0)`) and is not a patch
release, yet `get_releases_between` drops it (its strict parse raises
`ValueError`, so `_is_version_between` returns `False`). -/
theorem releases_between_malformed_counterexample :
    get_releases_between [⟨"abc", none, none, none⟩] "0.0.0" "1.0.0" = [] ∧
    is_version_same_or_after "abc" "0.0.0" = true ∧
    is_version_same_or_after "1.0.0" "abc" = true ∧
    _is_patch_release "abc" = false := ⟨rfl, by decide, by decide, by decide⟩

/-- Witness for C6 (amended) at a singleton release list with parsed
endpoints. -/
theorem releases_between_window_witness :
    (⟨"0.106.0", none, none, none⟩ : ReleaseInfo) ∈
      get_releases_between [⟨"0.106.0", none, none, none⟩] "0.105.0" "0.107.0" ↔
    (⟨"0.106.0", none, none, none⟩ : ReleaseInfo) ∈
      [(⟨"0.106.0", none, none, none⟩ : ReleaseInfo)] ∧
    is_version_same_or_after "0.106.0" "0.105.0" = true ∧
    is_version_same_or_after "0.107.0" "0.106.0" = true ∧
    _is_patch_release "0.106.0" = false :=
  releases_between_window.1 [⟨"0.106.0", none, none, none⟩] "0.105.0" "0.107.0"
    ⟨"0.106.0", none, none, none⟩ [0, 105, 0] [0, 107, 0] [0, 106, 0]
    (by rfl) (by rfl) (by rfl)
theorem isPrefixOfChar_iff {l1 l2 : List Char} : l1.isPrefixOf l2 = true ↔ l1 <+: l2 := by
  induction l1 generalizing l2 with
  | nil => simp [List.isPrefixOf, List.nil_prefix]
  | cons a t ih =>
    cases l2 with
    | nil => simp [List.isPrefixOf]
    | cons b t2 => simp [List.isPrefixOf, List.cons_prefix_cons, ih, beq_iff_eq]

theorem dropWhile_head_false {p : Char → Bool} {l : List Char} {c : Char} {t : List Char}
    (h : l.dropWhile p = c :: t) : p c = false := by
  induction l with
  | nil => simp [List.dropWhile] at h
  | cons a l2 ih =>
    rw [List.dropWhile_cons] at h
    cases hpa : p a with
    | true =>
      rw [hpa] at h
      simp at h
      exact ih h
    | false =>
      rw [hpa] at h
      simp at h
      rw [← h.1]
      exact hpa

theorem dropTrailingWs_front (cs : List Char) : dropTrailingWs cs <+: cs := by
  rw [← List.reverse_suffix]
  unfold dropTrailingWs
  rw [List.reverse_reverse]
  exact List.dropWhile_suffix _

theorem dropWhile_eq_nil_of_wsStrip {cs : List Char} (h : wsStrip cs = []) :
    cs.dropWhile pyIsSpace = [] := by
  rcases hx : cs.dropWhile pyIsSpace with _ | ⟨c, t⟩
  · rfl
  · have hc : pyIsSpace c = false := dropWhile_head_false hx
    unfold wsStrip dropTrailingWs at h
    rw [hx] at h
    have h2 : (c :: t).reverse.dropWhile pyIsSpace = [] := by
      rw [← List.reverse_eq_nil_iff]
      simpa using h
    have hall := List.dropWhile_eq_nil_iff.mp h2
    have := hall c (by simp)
    rw [hc] at this
    cases this

theorem pyStrip_eq_empty_dropWhile {l : String} (h : pyStrip l = "") :
    l.data.dropWhile pyIsSpace = [] := by
  unfold pyStrip at h
  have hww : wsStrip l.data = [] := by
    have := congrArg String.data h
    simpa using this
  exact dropWhile_eq_nil_of_wsStrip hww

theorem matchVersionComment_blank {l : String} (h : pyStrip l = "") :
    matchVersionComment l = false := by
  unfold matchVersionComment
  rw [pyStrip_eq_empty_dropWhile h]

theorem break_false_of_blank {l : String} (h : pyStrip l = "") :
    (pyStrip l != "" && !(pyStartsWith (pyStrip l) "#")) = false := by
  rw [h]
  simp

theorem pyStrip_shebang_dropWhile {l : String}
    (h : pyStartsWith (pyStrip l) "#!" = true) :
    ∃ t, l.data.dropWhile pyIsSpace = '#' :: '!' :: t := by
  unfold pyStartsWith at h
  have hp : "#!".data <+: (pyStrip l).data := isPrefixOfChar_iff.mp h
  have hp2 : "#!".data <+: dropTrailingWs (l.data.dropWhile pyIsSpace) := hp
  have hp3 : "#!".data <+: l.data.dropWhile pyIsSpace :=
    hp2.trans (dropTrailingWs_front _)
  obtain ⟨t, ht⟩ := hp3
  exact ⟨t, ht.symm⟩

theorem matchVersionComment_shebang {l : String}
    (h : pyStartsWith (pyStrip l) "#!" = true) :
    matchVersionComment l = false := by
  obtain ⟨t, ht⟩ := pyStrip_shebang_dropWhile h
  unfold matchVersionComment
  rw [ht]
  rfl

theorem break_false_of_shebang {l : String}
    (h : pyStartsWith (pyStrip l) "#!" = true) :
    (pyStrip l != "" && !(pyStartsWith (pyStrip l) "#")) = false := by
  have h2 : pyStartsWith (pyStrip l) "#" = true := by
    unfold pyStartsWith at h ⊢
    have hp := isPrefixOfChar_iff.mp h
    exact isPrefixOfChar_iff.mpr (List.IsPrefix.trans ⟨['!'], rfl⟩ hp)
  rw [h2]
  simp

theorem dropWhile_append_ne_nil {cs : List Char}
    (h : cs.any (fun c => !pyIsSpace c) = true) (ys : List Char) :
    ((cs ++ ys).dropWhile pyIsSpace).isEmpty = false := by
  induction cs with
  | nil => simp at h
  | cons c cs2 ih =>
    rw [List.cons_append, List.dropWhile_cons]
    cases hc : pyIsSpace c with
    | true =>
      simp only [hc, if_true]
      apply ih
      simp [List.any_cons, hc] at h
      simpa using h
    | false => simp [hc]

theorem matchVersionComment_mkVersionComment {v : String}
    (hv : v.data.any (fun c => !pyIsSpace c) = true) :
    matchVersionComment (mkVersionComment v) = true := by
  have h3 := dropWhile_append_ne_nil hv ['\n']
  show (!((v.data ++ ['\n']).dropWhile pyIsSpace).isEmpty) = true
  rw [h3]
  rfl
theorem findCommentLine_cons_of_match {l : String} (rest : List String)
    (h : matchVersionComment l = true) : findCommentLine (l :: rest) = some 0 := by
  simp [findCommentLine, h]

theorem findCommentLine_cons_of_skip {l : String} (rest : List String)
    (h1 : matchVersionComment l = false)
    (h2 : (pyStrip l != "" && !(pyStartsWith (pyStrip l) "#")) = false) :
    findCommentLine (l :: rest) = (findCommentLine rest).map (· + 1) := by
  simp [findCommentLine, h1, h2]

theorem update_of_head_match {v : String} (tail : List String)
    (hm : matchVersionComment (mkVersionComment v) = true) :
    update_version_comment (mkVersionComment v :: tail) v =
      mkVersionComment v :: tail := by
  unfold update_version_comment
  rw [findCommentLine_cons_of_match tail hm]
  rfl

theorem findCommentLine_shebang_block {l0 b : String} (tail : List String) {v : String}
    (hsb : pyStartsWith (pyStrip l0) "#!" = true) (hb : pyStrip b = "")
    (hm : matchVersionComment (mkVersionComment v) = true) :
    findCommentLine (l0 :: b :: mkVersionComment v :: tail) = some 2 := by
  rw [findCommentLine_cons_of_skip _ (matchVersionComment_shebang hsb)
        (break_false_of_shebang hsb),
      findCommentLine_cons_of_skip _ (matchVersionComment_blank hb)
        (break_false_of_blank hb),
      findCommentLine_cons_of_match _ hm]
  rfl

theorem update_of_shebang_block {l0 b v : String} (tail : List String)
    (hsb : pyStartsWith (pyStrip l0) "#!" = true) (hb : pyStrip b = "")
    (hm : matchVersionComment (mkVersionComment v) = true) :
    update_version_comment (l0 :: b :: mkVersionComment v :: tail) v =
      l0 :: b :: mkVersionComment v :: tail := by
  unfold update_version_comment
  rw [findCommentLine_shebang_block tail hsb hb hm]
  rfl

theorem findCommentLine_set {v : String}
    (hm : matchVersionComment (mkVersionComment v) = true) :
    ∀ (lines : List String) (i : Nat), findCommentLine lines = some i →
      findCommentLine (lines.set i (mkVersionComment v)) = some i := by
  intro lines
  induction lines with
  | nil => intro i h; simp [findCommentLine] at h
  | cons l rest ih =>
    intro i h
    cases h1 : matchVersionComment l with
    | true =>
      rw [findCommentLine_cons_of_match rest h1] at h
      injection h with h
      subst h
      exact findCommentLine_cons_of_match rest hm
    | false =>
      cases h2 : (pyStrip l != "" && !(pyStartsWith (pyStrip l) "#")) with
      | true =>
        simp [findCommentLine, h1, h2] at h
      | false =>
        rw [findCommentLine_cons_of_skip rest h1 h2] at h
        rcases ho : findCommentLine rest with _ | j
        · rw [ho] at h
          simp at h
        · rw [ho] at h
          simp at h
          subst h
          show findCommentLine (l :: rest.set j (mkVersionComment v)) = some (j + 1)
          rw [findCommentLine_cons_of_skip _ h1 h2, ih j ho]
          rfl
theorem update_none_head {l0 : String} (rest : List String) {v : String}
    (hf : findCommentLine (l0 :: rest) = none)
    (hsb : pyStartsWith (pyStrip l0) "#!" = false) :
    update_version_comment (l0 :: rest) v =
      mkVersionComment v :: "\n" :: l0 :: rest ∨
    update_version_comment (l0 :: rest) v = mkVersionComment v :: l0 :: rest := by
  unfold update_version_comment
  rw [hf]
  simp only [insertPrep, hsb, Bool.false_eq_true, if_false, insertAt]
  split
  · exact Or.inl rfl
  · exact Or.inr rfl

theorem update_none_shebang_nil {l0 : String} {v : String}
    (hf : findCommentLine [l0] = none)
    (hsb : pyStartsWith (pyStrip l0) "#!" = true) :
    update_version_comment [l0] v = [l0, "\n", mkVersionComment v] := by
  unfold update_version_comment
  rw [hf]
  simp [insertPrep, hsb, insertAt]

theorem update_none_shebang_blank {l0 l1 : String} (rest2 : List String) {v : String}
    (hf : findCommentLine (l0 :: l1 :: rest2) = none)
    (hsb : pyStartsWith (pyStrip l0) "#!" = true)
    (hb1 : (pyStrip l1 == "") = true) :
    update_version_comment (l0 :: l1 :: rest2) v =
      l0 :: l1 :: mkVersionComment v :: "\n" :: rest2 ∨
    update_version_comment (l0 :: l1 :: rest2) v =
      l0 :: l1 :: mkVersionComment v :: rest2 := by
  unfold update_version_comment
  rw [hf]
  simp only [insertPrep, hsb, hb1, if_true, insertAt]
  split
  · exact Or.inl rfl
  · exact Or.inr rfl

theorem update_none_shebang_nonblank {l0 l1 : String} (rest2 : List String) {v : String}
    (hf : findCommentLine (l0 :: l1 :: rest2) = none)
    (hsb : pyStartsWith (pyStrip l0) "#!" = true)
    (hb1 : (pyStrip l1 == "") = false) :
    update_version_comment (l0 :: l1 :: rest2) v =
      l0 :: "\n" :: mkVersionComment v :: "\n" :: l1 :: rest2 ∨
    update_version_comment (l0 :: l1 :: rest2) v =
      l0 :: "\n" :: mkVersionComment v :: l1 :: rest2 := by
  unfold update_version_comment
  rw [hf]
  simp only [insertPrep, hsb, hb1, Bool.false_eq_true, if_true, if_false, insertAt]
  split
  · exact Or.inl rfl
  · exact Or.inr rfl

/-- Claim C10 (amended): `update_version_comment` is idempotent for every line
list and every version string containing at least one non-whitespace
character (the comment written for an all-whitespace version does not match
the version-comment pattern — see the counterexample). -/
theorem update_version_comment_idempotent :
    ∀ (lines : List String) (v : String),
      v.data.any (fun c => !pyIsSpace c) = true →
      update_version_comment (update_version_comment lines v) v =
        update_version_comment lines v := by
  intro lines v hv
  have hm : matchVersionComment (mkVersionComment v) = true :=
    matchVersionComment_mkVersionComment hv
  cases hf : findCommentLine lines with
  | some i =>
    have e1 : update_version_comment lines v = lines.set i (mkVersionComment v) := by
      unfold update_version_comment
      rw [hf]
    have h2 := findCommentLine_set hm lines i hf
    have e2 : update_version_comment (lines.set i (mkVersionComment v)) v =
        (lines.set i (mkVersionComment v)).set i (mkVersionComment v) := by
      unfold update_version_comment
      rw [h2]
    rw [e1, e2, List.set_set]
  | none =>
    cases lines with
    | nil =>
      have e1 : update_version_comment ([] : List String) v = [mkVersionComment v] := rfl
      rw [e1, update_of_head_match [] hm]
    | cons l0 rest =>
      cases hsb : pyStartsWith (pyStrip l0) "#!" with
      | false =>
        rcases update_none_head rest hf hsb with e1 | e1 <;>
          rw [e1, update_of_head_match _ hm]
      | true =>
        cases rest with
        | nil =>
          rw [update_none_shebang_nil hf hsb]
          exact update_of_shebang_block [] hsb (by decide) hm
        | cons l1 rest2 =>
          cases hb1 : (pyStrip l1 == "") with
          | true =>
            have hb1' : pyStrip l1 = "" := eq_of_beq hb1
            rcases update_none_shebang_blank rest2 hf hsb hb1 with e1 | e1 <;>
              rw [e1, update_of_shebang_block _ hsb hb1' hm]
          | false =>
            rcases update_none_shebang_nonblank rest2 hf hsb hb1 with e1 | e1 <;>
              rw [e1, update_of_shebang_block _ hsb (by decide) hm]

/-- Claim C10 counterexample: for the empty line list and the version string `""`
(no non-whitespace character), one application produces one line but a
second application produces three, so the function is not idempotent for
every version string. -/
theorem update_version_comment_not_idempotent_blank :
    update_version_comment (update_version_comment [] "") "" ≠
      update_version_comment [] "" := by decide

/-- Witness for C10 (amended) at a concrete script with a shebang. -/
theorem update_version_comment_idempotent_witness :
    update_version_comment
        (update_version_comment ["#!/usr/bin/env nu\n", "ls | length\n"] "0.97.0")
        "0.97.0" =
      update_version_comment ["#!/usr/bin/env nu\n", "ls | length\n"] "0.97.0" :=
  update_version_comment_idempotent ["#!/usr/bin/env nu\n", "ls | length\n"] "0.97.0"
    (by decide)
